import Mathlib

/-!
Verification of the erc20pump log-scanning engine.

Shallow embedding of the Go sources:
  * `internal/scanner/*.go` (the `logPuller` service: `nextLogs`, `fetchHead`,
    `process`, the `contractMatch` closure built in `newPuller`, and one
    iteration of the `scan` loop body), and
  * `internal/scanner/rpc/rpc.go` (the `Adapter.TrxRecipient` wrapper).

Machine integers (`uint64` block heights) are modelled as `Nat` with explicit
`% 2^64` at the two places the Go code performs arithmetic on them
(`currentBlock + defaultLogsWindowSize` and `target + 1`).  External
collaborators — the go-ethereum client behind `rpc.Adapter` and the
memoizing recipient cache — are passed in as explicit response values or
response functions, exactly at the call sites where the Go code consults
them.
-/

namespace Erc20pump

/-- Wrap-around modulus of Go's `uint64`. -/
def U64 : Nat := 2 ^ 64

/-- Errors carried by Go `error` values; only their presence matters, so they
are modelled as opaque numeric codes. -/
abbrev Err := Nat

/-- A 20-byte `common.Address`, as the byte sequence its `Bytes()` method
yields. -/
abbrev Addr := List Nat

/-- The zero value `common.Address{}` (20 zero bytes). -/
def zeroAddress : Addr := List.replicate 20 0

/-- Go's `bytes.Compare`: lexicographic three-way comparison of byte
slices. -/
def bytesCompare : List Nat → List Nat → Int
  | [], [] => 0
  | [], _ :: _ => -1
  | _ :: _, [] => 1
  | a :: as, b :: bs => if a < b then -1 else if b < a then 1 else bytesCompare as bs

/-- The `contractMatch` closure installed by `newPuller`:
`bytes.Compare(rc.Bytes(), cfg.ScanContract.Bytes()) == 0`. -/
def contractMatch (scanContract : Addr) (rc : Addr) : Bool :=
  bytesCompare rc scanContract == 0

/-- A `types.Log` record, with the fields the scanner consumes. -/
structure Log where
  address : Addr
  topics : List Nat
  data : List Nat
  blockNumber : Nat
  txHash : Nat
deriving Repr, DecidableEq

/-- `defaultLogsWindowSize`: "the maximal number of blocks we try to pull at
once" per the source comment. -/
def defaultLogsWindowSize : Nat := 5

/-- The mutable scan cursor state of `logPuller`: the last known head
(`topBlock`) and the next block to scan (`currentBlock`), both `uint64`. -/
structure PullerState where
  topBlock : Nat
  currentBlock : Nat
deriving Repr, DecidableEq

/-- The `target` computed by `nextLogs`:
`target := lp.currentBlock + defaultLogsWindowSize` (uint64 addition),
then clamped down to `lp.topBlock` when it exceeds it. -/
def nextLogsTarget (s : PullerState) : Nat :=
  let t := (s.currentBlock + defaultLogsWindowSize) % U64
  if t > s.topBlock then s.topBlock else t

/-- Result of one `nextLogs` call: the returned batch, the state after the
call, and the block range handed to `rpc.GetLogs` (`none` when no RPC
request was issued). -/
structure FetchResult where
  batch : List Log
  state : PullerState
  request : Option (Nat × Nat)
deriving Repr, DecidableEq

/-- `logPuller.nextLogs`.  The go-ethereum call `lp.rpc.GetLogs(topics,
from, to)` is abstracted as the response function `getLogs from to` (the
topic set is fixed for the puller's lifetime and not consulted by this
logic). -/
def nextLogs (getLogs : Nat → Nat → Except Err (List Log)) (s : PullerState) :
    FetchResult :=
  if s.currentBlock > s.topBlock then
    { batch := [], state := s, request := none }
  else
    let target := nextLogsTarget s
    match getLogs s.currentBlock target with
    | Except.error _ =>
        { batch := [], state := s, request := some (s.currentBlock, target) }
    | Except.ok logs =>
        { batch := logs,
          state := { s with currentBlock := (target + 1) % U64 },
          request := some (s.currentBlock, target) }

/-- `logPuller.fetchHead`: the Go statement
`lp.topBlock, err = lp.rpc.TopBlock()` assigns the returned height to
`topBlock` unconditionally; a non-nil `err` is only logged.  `resp` is the
`(uint64, error)` pair returned by the client. -/
def fetchHead (resp : Nat × Option Err) (s : PullerState) : PullerState :=
  { s with topBlock := resp.1 }

/-- `logPuller.process`: resolve the recipient of the record's transaction
(the memoized lookup `lp.cache.TrxRecipient(ev.TxHash, lp.rpc.TrxRecipient)`
is abstracted as the response function `resolve`), drop the record on a
resolution error or a filter mismatch, otherwise push it onto the output
channel (modelled as appending to the list of emitted records). -/
def process (resolve : Nat → Except Err Addr) (watched : Addr)
    (out : List Log) (ev : Log) : List Log :=
  match resolve ev.txHash with
  | Except.error _ => out
  | Except.ok rec => if contractMatch watched rec then out ++ [ev] else out

/-- `rpc.Adapter.TrxRecipient`.  `txResp` is the outcome of the go-ethereum
call `TransactionByHash`: an error, or a transaction whose `To()` is `nil`
(`none`, a contract-creation transaction) or an address.  Returns the Go
`(common.Address, error)` pair. -/
def TrxRecipient (txResp : Except Err (Option Addr)) : Addr × Option Err :=
  match txResp with
  | Except.error e => (zeroAddress, some e)
  | Except.ok none => (zeroAddress, none)
  | Except.ok (some dst) => (dst, none)

/-- State touched by one iteration of the `scan` loop body: the puller
cursor state, the locally buffered `logs` slice, and the records emitted on
the output channel so far. -/
structure ScanState where
  puller : PullerState
  buffered : List Log
  output : List Log
deriving Repr, DecidableEq

/-- One iteration of the body of `logPuller.scan` (timers and the stop
signal aside): with no buffered records, fetch the next window; otherwise
pop exactly one record and run `process` on it. -/
def scanStep (getLogs : Nat → Nat → Except Err (List Log))
    (resolve : Nat → Except Err Addr) (watched : Addr)
    (s : ScanState) : ScanState :=
  match s.buffered with
  | [] =>
      let r := nextLogs getLogs s.puller
      { s with puller := r.state, buffered := r.batch }
  | ev :: rest =>
      { s with
        buffered := rest,
        output := process resolve watched s.output ev }

/-! ### Helper lemmas -/

/-- `bytes.Compare` returns `0` exactly on equal byte sequences. -/
theorem bytesCompare_eq_zero_iff : ∀ a b : List Nat, bytesCompare a b = 0 ↔ a = b
  | [], [] => by simp [bytesCompare]
  | [], _ :: _ => by simp [bytesCompare]
  | _ :: _, [] => by simp [bytesCompare]
  | a :: as, b :: bs => by
    by_cases hab : a < b
    · simp [bytesCompare, hab]
      intro h
      omega
    · by_cases hba : b < a
      · simp [bytesCompare, hab, hba]
        intro h
        omega
      · have hab' : a = b := by omega
        simp [bytesCompare, hab, hba, hab', bytesCompare_eq_zero_iff as bs]

/-- The `contractMatch` predicate holds exactly on byte-for-byte equal
addresses. -/
theorem contractMatch_iff (scanContract rc : Addr) :
    contractMatch scanContract rc = true ↔ rc = scanContract := by
  simp [contractMatch]
  exact bytesCompare_eq_zero_iff rc scanContract

/-! ### Claim theorems -/

/-- C1: the claimed window bound `target - currentBlock + 1 ≤ maxWindow`
fails on the code.  With `topBlock = 100`, `currentBlock = 1` the fetcher
hands `rpc.GetLogs` the range `[1, 6]` — six blocks, one more than
`defaultLogsWindowSize` — because `nextLogs` computes
`target = currentBlock + defaultLogsWindowSize` without the `- 1`.  The
second half of the claim, `target ≤ topBlock`, does hold at this input. -/
theorem nextLogs_window_exceeds_bound :
    (nextLogs (fun _ _ => Except.ok []) ⟨100, 1⟩).request = some (1, 6) ∧
    6 - 1 + 1 = defaultLogsWindowSize + 1 ∧ 6 ≤ 100 := by
  refine ⟨rfl, rfl, by omega⟩

/-- C2: the spec scenario `topBlock = 100`, `currentBlock = 1` fails on the
code: the first fetch requests `[1, 6]` (not `[1, 5]`) and on success the
cursor becomes `7` (not `6`). -/
theorem nextLogs_first_fetch_off_by_one :
    (nextLogs (fun _ _ => Except.ok []) ⟨100, 1⟩).request = some (1, 6) ∧
    (nextLogs (fun _ _ => Except.ok []) ⟨100, 1⟩).state.currentBlock = 7 :=
  ⟨rfl, rfl⟩

/-- C3: the claim that a failed head-refresh leaves `topBlock` untouched
fails on the code: `lp.topBlock, err = lp.rpc.TopBlock()` stores the value
returned alongside the error (the reference client returns `0`) before the
error is examined, so a stored head of `100` is overwritten by `0`. -/
theorem fetchHead_error_overwrites_topBlock :
    (fetchHead (0, some 1) ⟨100, 1⟩).topBlock = 0 ∧ (0 : Nat) ≠ 100 :=
  ⟨rfl, by omega⟩

/-- C4: a record is pushed onto the output stream iff recipient resolution
succeeds and the resolved address is byte-for-byte equal to the watched
contract address; on resolution failure or address mismatch the output is
unchanged. -/
theorem process_emits_iff_match (resolve : Nat → Except Err Addr)
    (watched : Addr) (out : List Log) (ev : Log) :
    (process resolve watched out ev = out ++ [ev] ↔
      ∃ a, resolve ev.txHash = Except.ok a ∧ a = watched) ∧
    ((¬ ∃ a, resolve ev.txHash = Except.ok a ∧ a = watched) →
      process resolve watched out ev = out) := by
  rcases hres : resolve ev.txHash with e | rec
  · refine ⟨?_, fun _ => ?_⟩
    · constructor
      · intro habs
        simp [process, hres] at habs
      · rintro ⟨a, ha, -⟩
        exact absurd ha (by simp)
    · simp [process, hres]
  · by_cases hm : rec = watched
    · have hmt : contractMatch watched rec = true :=
        (contractMatch_iff watched rec).mpr hm
      refine ⟨?_, ?_⟩
      · constructor
        · intro _
          exact ⟨rec, rfl, hm⟩
        · intro _
          simp [process, hres, hmt]
      · intro hno
        exact absurd ⟨rec, rfl, hm⟩ hno
    · have hmf : ¬ contractMatch watched rec = true := fun hc =>
        hm ((contractMatch_iff watched rec).mp hc)
      refine ⟨?_, fun _ => ?_⟩
      · constructor
        · intro habs
          simp [process, hres, hmf] at habs
        · rintro ⟨a, ha, haw⟩
          injection ha with ha'
          exact absurd (ha'.trans haw) hm
      · simp [process, hres, hmf]

/-- C5: when the log-retrieval RPC fails, `nextLogs` returns an empty batch
and leaves the cursor state unchanged. -/
theorem nextLogs_error_no_progress (getLogs : Nat → Nat → Except Err (List Log))
    (s : PullerState) (e : Err)
    (h : getLogs s.currentBlock (nextLogsTarget s) = Except.error e) :
    (nextLogs getLogs s).batch = [] ∧ (nextLogs getLogs s).state = s := by
  by_cases hc : s.currentBlock > s.topBlock
  · simp [nextLogs, hc]
  · simp [nextLogs, hc, h]

/-- C5 witness: a concrete failing fetch at `topBlock = 100`,
`currentBlock = 6` returns an empty batch and the same state. -/
theorem nextLogs_error_no_progress_witness :
    (nextLogs (fun _ _ => Except.error 7) ⟨100, 6⟩).batch = [] ∧
    (nextLogs (fun _ _ => Except.error 7) ⟨100, 6⟩).state = ⟨100, 6⟩ :=
  nextLogs_error_no_progress (fun _ _ => Except.error 7) ⟨100, 6⟩ 7 rfl

/-- C6 counterexample: the cursor is not always non-decreasing.  At the top
of the `uint64` range (`topBlock = 2^64 - 1`, `currentBlock = 2^64 - 6`) a
successful fetch computes `target = 2^64 - 1` and the `uint64` increment
`target + 1` wraps the cursor around to `0`, strictly below its previous
value. -/
theorem nextLogs_cursor_wrap_counterexample :
    (nextLogs (fun _ _ => Except.ok []) ⟨U64 - 1, U64 - 6⟩).state.currentBlock = 0 ∧
    (0 : Nat) < U64 - 6 := by
  constructor
  · rfl
  · norm_num [U64]

/-- C6 amended: provided the `uint64` window arithmetic does not wrap
(`currentBlock + defaultLogsWindowSize + 1 < 2^64`), one `nextLogs` call
never decreases `currentBlock`, and strictly increases it exactly when a
fetch was issued (`currentBlock ≤ topBlock`) and the client returned
without error — even when zero records were returned. -/
theorem nextLogs_cursor_monotone (getLogs : Nat → Nat → Except Err (List Log))
    (s : PullerState)
    (h : s.currentBlock + defaultLogsWindowSize + 1 < U64) :
    s.currentBlock ≤ (nextLogs getLogs s).state.currentBlock ∧
    (s.currentBlock < (nextLogs getLogs s).state.currentBlock ↔
      (s.currentBlock ≤ s.topBlock ∧
        ∃ logs, getLogs s.currentBlock (nextLogsTarget s) = Except.ok logs)) := by
  have hmod : (s.currentBlock + defaultLogsWindowSize) % U64 =
      s.currentBlock + defaultLogsWindowSize := Nat.mod_eq_of_lt (by omega)
  by_cases hc : s.currentBlock > s.topBlock
  · have hstate : (nextLogs getLogs s).state = s := by
      simp [nextLogs, hc]
    rw [hstate]
    refine ⟨le_refl _, ?_, ?_⟩
    · intro hlt
      exact absurd hlt (lt_irrefl _)
    · rintro ⟨hle, -⟩
      exact absurd hle (by omega)
  · have hcle : s.currentBlock ≤ s.topBlock := Nat.le_of_not_lt hc
    have hbounds : s.currentBlock ≤ nextLogsTarget s ∧ nextLogsTarget s + 1 < U64 := by
      simp only [nextLogsTarget, hmod]
      split
      · omega
      · omega
    rcases hres : getLogs s.currentBlock (nextLogsTarget s) with e | logs
    · have hstate : (nextLogs getLogs s).state = s := by
        simp [nextLogs, hc, hres]
      rw [hstate]
      refine ⟨le_refl _, ?_, ?_⟩
      · intro hlt
        exact absurd hlt (lt_irrefl _)
      · rintro ⟨-, logs, hok⟩
        simp at hok
    · have hcb : (nextLogs getLogs s).state.currentBlock = nextLogsTarget s + 1 := by
        simp [nextLogs, hc, hres, Nat.mod_eq_of_lt hbounds.2]
      rw [hcb]
      refine ⟨by omega, ?_, ?_⟩
      · intro _
        exact ⟨hcle, logs, rfl⟩
      · intro _
        omega

/-- C6 amended witness: at `topBlock = 100`, `currentBlock = 1` with a
successful empty fetch, the cursor strictly increases. -/
theorem nextLogs_cursor_monotone_witness :
    (1 : Nat) ≤ (nextLogs (fun _ _ => Except.ok []) ⟨100, 1⟩).state.currentBlock ∧
    (1 : Nat) < (nextLogs (fun _ _ => Except.ok []) ⟨100, 1⟩).state.currentBlock :=
  ⟨(nextLogs_cursor_monotone (fun _ _ => Except.ok []) ⟨100, 1⟩ (by norm_num [U64, defaultLogsWindowSize])).1,
   ((nextLogs_cursor_monotone (fun _ _ => Except.ok []) ⟨100, 1⟩ (by norm_num [U64, defaultLogsWindowSize])).2).mpr
     ⟨by decide, [], rfl⟩⟩

/-- C7: when `currentBlock > topBlock`, `nextLogs` issues no RPC request,
returns an empty batch, and leaves the state unchanged. -/
theorem nextLogs_idle_noop (getLogs : Nat → Nat → Except Err (List Log))
    (s : PullerState) (h : s.topBlock < s.currentBlock) :
    nextLogs getLogs s = { batch := [], state := s, request := none } := by
  simp [nextLogs, h]

/-- C7 witness: at `currentBlock = 101`, `topBlock = 100` the fetch is a
no-op. -/
theorem nextLogs_idle_noop_witness :
    nextLogs (fun _ _ => Except.ok []) ⟨100, 101⟩ =
      { batch := [], state := ⟨100, 101⟩, request := none } :=
  nextLogs_idle_noop (fun _ _ => Except.ok []) ⟨100, 101⟩ (by decide)

/-- C8: for a contract-creation transaction (`To()` is `nil`),
`TrxRecipient` returns the zero address with a nil error, and a record whose
resolution yields that zero address is dropped by the ordinary equality
check whenever the watched address is non-zero. -/
theorem trxRecipient_creation_dropped (watched : Addr) (out : List Log)
    (ev : Log) (resolve : Nat → Except Err Addr)
    (hres : resolve ev.txHash = Except.ok (TrxRecipient (Except.ok none)).1)
    (hw : watched ≠ zeroAddress) :
    TrxRecipient (Except.ok none) = (zeroAddress, none) ∧
    process resolve watched out ev = out := by
  refine ⟨rfl, ?_⟩
  have hres' : resolve ev.txHash = Except.ok zeroAddress := hres
  have hmf : ¬ contractMatch watched zeroAddress = true := fun hc =>
    hw ((contractMatch_iff watched zeroAddress).mp hc).symm
  simp [process, hres', hmf]

/-- A sample non-zero watched address (19 zero bytes then `1`). -/
def watchedSample : Addr := List.replicate 19 0 ++ [1]

/-- A sample log record. -/
def evSample : Log :=
  { address := zeroAddress, topics := [], data := [], blockNumber := 3, txHash := 42 }

/-- C8 witness: a creation transaction resolved to the zero address is
dropped for the sample watched address. -/
theorem trxRecipient_creation_dropped_witness :
    TrxRecipient (Except.ok none) = (zeroAddress, none) ∧
    process (fun _ => Except.ok zeroAddress) watchedSample [] evSample = [] :=
  trxRecipient_creation_dropped watchedSample [] evSample
    (fun _ => Except.ok zeroAddress) rfl (by decide)

/-- C9: when resolution of the head buffered record fails, one iteration of
the scan loop drops exactly that record: the cursor state is unchanged, the
output stream is unchanged, and the remaining buffered records are kept. -/
theorem scanStep_resolution_miss_frame
    (getLogs : Nat → Nat → Except Err (List Log))
    (resolve : Nat → Except Err Addr) (watched : Addr) (s : ScanState)
    (ev : Log) (rest : List Log) (e : Err)
    (hbuf : s.buffered = ev :: rest)
    (hres : resolve ev.txHash = Except.error e) :
    scanStep getLogs resolve watched s =
      { puller := s.puller, buffered := rest, output := s.output } := by
  simp [scanStep, hbuf, process, hres]

/-- C9 witness: a concrete scan iteration with a failing resolver drops the
record and changes nothing else. -/
theorem scanStep_resolution_miss_frame_witness :
    scanStep (fun _ _ => Except.ok []) (fun _ => Except.error 5) watchedSample
      ⟨⟨100, 6⟩, [evSample], []⟩ =
      { puller := ⟨100, 6⟩, buffered := [], output := [] } :=
  scanStep_resolution_miss_frame (fun _ _ => Except.ok [])
    (fun _ => Except.error 5) watchedSample ⟨⟨100, 6⟩, [evSample], []⟩
    evSample [] 5 rfl rfl

/-- C10: whenever `TrxRecipient` returns a non-nil error, the address it
returns alongside the error is the zero address. -/
theorem trxRecipient_error_zero_address (txResp : Except Err (Option Addr))
    (e : Err) (h : (TrxRecipient txResp).2 = some e) :
    (TrxRecipient txResp).1 = zeroAddress := by
  rcases txResp with e' | a
  · rfl
  · rcases a with _ | dst
    · rfl
    · simp [TrxRecipient] at h

/-- C10 witness: a failed transaction lookup yields the zero address. -/
theorem trxRecipient_error_zero_address_witness :
    (TrxRecipient (Except.error 9)).1 = zeroAddress :=
  trxRecipient_error_zero_address (Except.error 9) 9 rfl

end Erc20pump
